import Mathlib

/-!
# Verification of the quote_generator repository

A shallow embedding of `src/quote_generator.py` (class `QuoteGenerator`) and
proofs about its behaviour.

Modelling conventions:
* A quote record is a Python `dict` with string keys and values, as produced by
  parsing the JSON data file; we model it as an association list
  (`List (String × String)`), with `dictGet` playing the role of `dict.get`.
* `random.choice(seq)` returns `seq[i]` for an index `i` drawn uniformly from
  `[0, len(seq))`; we model the draw by an arbitrary selector `i : Nat` reduced
  modulo the length, so that every possible outcome of the random draw is
  realised by some selector value.
* `str.lower()` and `str.capitalize()` are modelled character-wise with
  `Char.toLower` / `Char.toUpper`, matching Python on the ASCII range the
  program exercises.
* File input and JSON parsing happen outside the repository (in `open` and
  `json.load`); `load_quotes` is therefore modelled as a function of the
  outcome of those two steps: `none` for a missing file, `some none` for
  content that is not valid JSON, `some (some v)` for content parsing to the
  JSON value `v`.
-/

namespace QuoteGen

/-- A quote record: a Python dict with string keys and string values. -/
abbrev Dict := List (String × String)

/-- Python `q.get(k, d)`: the value stored under key `k`, or the default `d`
when the key is absent. -/
def dictGet (q : Dict) (k d : String) : String := (q.lookup k).getD d

/-- Python `str.lower()` (character-wise, ASCII range). -/
def pyLower (s : String) : String := String.mk (s.data.map Char.toLower)

/-- Python `str.capitalize()`: the first character uppercased and the
remainder lowercased. -/
def pyCapitalize (s : String) : String :=
  match s.data with
  | [] => ""
  | c :: cs => String.mk (Char.toUpper c :: cs.map Char.toLower)

/-- Python `random.choice(l)` under a selector `i` standing for the random
draw: the element at index `i % l.length` (every index below the length is
reached by some selector). Returns `none` only on the empty list, where
`random.choice` would raise; both callers in the source guard against that. -/
def pyChoice (l : List Dict) (i : Nat) : Option Dict := l[i % l.length]?

/-- Model of `QuoteGenerator.get_random_quote`: `None` if the collection is empty,
otherwise `random.choice(self.quotes)`. -/
def get_random_quote (quotes : List Dict) (i : Nat) : Option Dict :=
  if quotes.isEmpty then none else pyChoice quotes i

/-- The filter predicate of `get_quote_by_category`:
`quote.get('category', '').lower() == category.lower()`. -/
def matchesCategory (category : String) (q : Dict) : Bool :=
  pyLower (dictGet q "category" "") == pyLower category

/-- Model of `QuoteGenerator.get_quote_by_category`: filter the collection by the
case-insensitive category match, then `None` if nothing matched, otherwise
`random.choice` on the filtered list. -/
def get_quote_by_category (quotes : List Dict) (category : String) (i : Nat) :
    Option Dict :=
  let filtered := quotes.filter (matchesCategory category)
  if filtered.isEmpty then none else pyChoice filtered i

/-- The category of a record as read by `get_all_categories`:
`quote.get('category', 'unknown')`. -/
def categoryOf (q : Dict) : String := dictGet q "category" "unknown"

/-- Model of `QuoteGenerator.get_all_categories`:
`sorted(set(quote.get('category', 'unknown') for quote in self.quotes))`.
Python's `sorted(set(xs))` is the list of the distinct elements of `xs` in
ascending order; we realise it as `dedup` followed by a sort. -/
def get_all_categories (quotes : List Dict) : List String :=
  List.insertionSort (· ≤ ·) ((quotes.map categoryOf).dedup)

/-- Model of `QuoteGenerator.format_quote`. The argument `none` stands for Python
`None` (the CLI passes `get_random_quote`'s result straight in); the guard
`if not quote` is true both for `None` and for the empty dict. -/
def format_quote (quote : Option Dict) : String :=
  match quote with
  | none => "No quote available."
  | some q =>
    if q.isEmpty then "No quote available."
    else
      let text := dictGet q "text" "Unknown quote"
      let author := dictGet q "author" "Unknown"
      let category := dictGet q "category" "unknown"
      "\n\"" ++ text ++ "\"\n\n— " ++ author ++ "\n[" ++ pyCapitalize category ++ "]\n"

/-- The output layout of `Format` as the specification words it: a blank
line, the quoted text, a blank line, an em-dash and the author, a blank line,
then the category in brackets with its first letter capitalized and the
remainder of the category unchanged. Used only to compare the specified
layout with the source's actual one. -/
def format_spec_layout (text author category : String) : String :=
  let capFirst : String :=
    match category.data with
    | [] => ""
    | c :: cs => String.mk (Char.toUpper c :: cs)
  "\n\"" ++ text ++ "\"\n\n— " ++ author ++ "\n\n[" ++ capFirst ++ "]\n"

/-! ## The loading layer -/

/-- A parsed JSON value, the possible results of Python's `json.load`
(numbers collapsed to `Int`; their numeric value is never used). -/
inductive JValue where
  | null
  | bool (b : Bool)
  | num (n : Int)
  | str (s : String)
  | arr (elems : List JValue)
  | obj (fields : List (String × JValue))

/-- Python truthiness of a JSON value: `None`, `False`, `0`, `""`, `[]` and
`{}` are falsy. -/
def jFalsy : JValue → Bool
  | .null => true
  | .bool b => !b
  | .num n => n == 0
  | .str s => s.isEmpty
  | .arr l => l.isEmpty
  | .obj l => l.isEmpty

/-- The outcome of `QuoteGenerator.load_quotes`. -/
inductive LoadResult where
  /-- Outcome `FileNotFoundError`, re-raised with a custom message. -/
  | fileNotFoundError
  /-- Outcome `json.JSONDecodeError`, re-raised with a custom message. -/
  | jsonDecodeError
  /-- Outcome `AttributeError` escaping `data.get` when the parsed document is not a
  dict; not caught by `load_quotes`. -/
  | attributeError
  /-- Success: `self.quotes` holds the value found under `'quotes'` (the list
  `[]` when the key is absent), and `warned` records whether the
  "no quotes found" warning was printed (`if not self.quotes`). -/
  | ok (quotes : JValue) (warned : Bool)

/-- Model of `QuoteGenerator.load_quotes`, as a function of the outcome of
`open` + `json.load`: `none` = the file does not exist, `some none` = the
content is not valid JSON, `some (some v)` = the content parses to `v`.
On a parsed document `data`, the source runs `data.get('quotes', [])` —
an `AttributeError` when `data` is not a dict — and then warns when the
resulting collection is falsy. -/
def load_quotes (source : Option (Option JValue)) : LoadResult :=
  match source with
  | none => .fileNotFoundError
  | some none => .jsonDecodeError
  | some (some data) =>
    match data with
    | .obj fields =>
      let q := (fields.lookup "quotes").getD (.arr [])
      .ok q (jFalsy q)
    | _ => .attributeError

/-! ## The store and its operations as state transformers

`QuoteGenerator` holds `self.quotes`; each query method reads it and returns
a result. The method bodies contain no assignment to `self.quotes` (only
`__init__`/`load_quotes` write it), which the embedding mirrors: `runOp`
returns the state it was given. -/

/-- The state of a constructed `QuoteGenerator`: its `self.quotes`. -/
structure QuoteGenerator where
  quotes : List Dict
deriving DecidableEq

/-- One call to a query method of the store (selector arguments model the
random draws, as in `pyChoice`). -/
inductive Op where
  | randomQuote (i : Nat)
  | quoteByCategory (c : String) (i : Nat)
  | allCategories
  | formatQuote (q : Option Dict)
deriving DecidableEq

/-- The result a query method returns. -/
inductive OpResult where
  | quote (q : Option Dict)
  | categories (cs : List String)
  | formatted (s : String)
deriving DecidableEq

/-- Run one query method on the store: the resulting state paired with the
returned value, mirroring the Python method bodies. -/
def runOp (g : QuoteGenerator) : Op → QuoteGenerator × OpResult
  | .randomQuote i => (g, .quote (get_random_quote g.quotes i))
  | .quoteByCategory c i => (g, .quote (get_quote_by_category g.quotes c i))
  | .allCategories => (g, .categories (get_all_categories g.quotes))
  | .formatQuote q => (g, .formatted (format_quote q))

/-- The state after a sequence of query calls. -/
def runOps (g : QuoteGenerator) (ops : List Op) : QuoteGenerator :=
  ops.foldl (fun s op => (runOp s op).1) g

/-! ## Theorems -/

/-- Applying `pyLower` gives the empty string exactly on the empty string. -/
theorem pyLower_eq_empty_iff (c : String) : pyLower c = "" ↔ c = "" := by
  constructor
  · intro h
    have hd : c.data.map Char.toLower = [] := congrArg String.data h
    have : c.data = [] := List.map_eq_nil_iff.mp hd
    cases c
    simp_all
  · intro h
    rw [h]
    rfl

/-- C1: `get_quote_by_category` performs a case-insensitive exact match of
the query against each record's category field: whatever the random draw, it
returns a record of the collection whose category equals the query up to case
whenever at least one record matches, and returns `none` exactly when no
record's category matches case-insensitively. -/
theorem get_quote_by_category_correct (quotes : List Dict) (c : String) (i : Nat) :
    ((∃ q ∈ quotes, pyLower (dictGet q "category" "") = pyLower c) →
      ∃ r, get_quote_by_category quotes c i = some r ∧ r ∈ quotes ∧
        pyLower (dictGet r "category" "") = pyLower c)
    ∧ (get_quote_by_category quotes c i = none ↔
      ∀ q ∈ quotes, pyLower (dictGet q "category" "") ≠ pyLower c) := by
  have hmatch : ∀ q : Dict, matchesCategory c q = true ↔
      pyLower (dictGet q "category" "") = pyLower c := by
    intro q
    simp [matchesCategory]
  unfold get_quote_by_category
  by_cases hemp : quotes.filter (matchesCategory c) = []
  · simp only [hemp, List.isEmpty_nil, if_pos]
    constructor
    · rintro ⟨q, hq, hcat⟩
      exact absurd ((List.filter_eq_nil_iff.mp hemp) q hq) (by simp [hmatch q, hcat])
    · simp only [true_iff]
      intro q hq hcat
      exact (List.filter_eq_nil_iff.mp hemp) q hq (by simp [hmatch q, hcat])
  · have hne : (quotes.filter (matchesCategory c)).isEmpty = false := by
      simpa [List.isEmpty_iff] using hemp
    have hlen : 0 < (quotes.filter (matchesCategory c)).length :=
      List.length_pos.mpr hemp
    have hlt : i % (quotes.filter (matchesCategory c)).length <
        (quotes.filter (matchesCategory c)).length := Nat.mod_lt _ hlen
    have hget : pyChoice (quotes.filter (matchesCategory c)) i =
        some ((quotes.filter (matchesCategory c))[i % (quotes.filter (matchesCategory c)).length]) :=
      List.getElem?_eq_getElem hlt
    have hmem := List.getElem_mem hlt
    have hfil := List.mem_filter.mp hmem
    simp only [hne, Bool.false_eq_true, if_false]
    refine ⟨fun _ => ⟨_, hget, hfil.1, (hmatch _).mp hfil.2⟩, ?_⟩
    rw [hget]
    simp only [reduceCtorEq, false_iff]
    intro hall
    exact hall _ hfil.1 ((hmatch _).mp hfil.2)

/-- Witness for C1: against the single record `{category: "motivational"}`,
both the query `"Motivational"` and the query `"motivational"` succeed and
return a record whose category is `"motivational"`. -/
theorem get_quote_by_category_correct_witness :
    (∃ r, get_quote_by_category [[("category", "motivational")]] "Motivational" 0 = some r ∧
      r ∈ [[("category", "motivational")]] ∧
      pyLower (dictGet r "category" "") = pyLower "Motivational")
    ∧ (∃ r, get_quote_by_category [[("category", "motivational")]] "motivational" 0 = some r ∧
      r ∈ [[("category", "motivational")]] ∧
      pyLower (dictGet r "category" "") = pyLower "motivational") :=
  ⟨(get_quote_by_category_correct [[("category", "motivational")]] "Motivational" 0).1
    ⟨[("category", "motivational")], by simp, by decide⟩,
   (get_quote_by_category_correct [[("category", "motivational")]] "motivational" 0).1
    ⟨[("category", "motivational")], by simp, by decide⟩⟩

/-- C5: on a nonempty collection, `get_random_quote` returns a member of the
collection for every outcome of the random draw, and every record of the
collection is produced by some outcome. -/
theorem get_random_quote_correct (quotes : List Dict) (h : quotes ≠ []) :
    (∀ i, ∃ q, get_random_quote quotes i = some q ∧ q ∈ quotes)
    ∧ (∀ q ∈ quotes, ∃ i, get_random_quote quotes i = some q) := by
  have hne : quotes.isEmpty = false := by simpa [List.isEmpty_iff] using h
  have hlen : 0 < quotes.length := List.length_pos.mpr h
  constructor
  · intro i
    have hlt : i % quotes.length < quotes.length := Nat.mod_lt _ hlen
    refine ⟨quotes[i % quotes.length], ?_, List.getElem_mem hlt⟩
    simp only [get_random_quote, hne, Bool.false_eq_true, if_false]
    exact List.getElem?_eq_getElem hlt
  · intro q hq
    obtain ⟨j, hj, hjq⟩ := List.mem_iff_getElem.mp hq
    refine ⟨j, ?_⟩
    simp only [get_random_quote, hne, Bool.false_eq_true, if_false]
    rw [pyChoice, Nat.mod_eq_of_lt hj]
    rw [List.getElem?_eq_getElem hj, hjq]

/-- Witness for C5: on the one-record collection `[{text: "A"}]` the first
draw returns the record, and the record is reachable. -/
theorem get_random_quote_correct_witness :
    (∃ q, get_random_quote [[("text", "A")]] 0 = some q ∧ q ∈ [[("text", "A")]])
    ∧ (∃ i, get_random_quote [[("text", "A")]] i = some [("text", "A")]) :=
  ⟨(get_random_quote_correct [[("text", "A")]] (by simp)).1 0,
   (get_random_quote_correct [[("text", "A")]] (by simp)).2 [("text", "A")] (by simp)⟩

/-- C6: on the empty collection, `get_random_quote` and
`get_quote_by_category` return `none` for every query string and every
outcome of the random draw; both are total functions into `Option`, so the
misses are absent values, not exceptions. -/
theorem empty_collection_no_result (c : String) (i : Nat) :
    get_random_quote [] i = none ∧ get_quote_by_category [] c i = none :=
  ⟨rfl, rfl⟩

/-- C2 counterexample: `Format({})` does not substitute the defaults. The
empty record is falsy under the guard `if not quote`, so `format_quote`
returns the fixed "No quote available." message, which does not contain
"Unknown quote". -/
theorem format_quote_empty_record_counterexample :
    format_quote (some []) = "No quote available."
    ∧ ¬ ("Unknown quote".data <:+: (format_quote (some [])).data) :=
  ⟨rfl, by decide⟩

/-- C2 (amended): `Format({})` returns "No quote available." because the
empty record is falsy; for a present non-empty record whose `text`, `author`
and `category` fields are all absent, the fixed defaults are substituted and
the result is exactly the layout carrying "Unknown quote", "Unknown" and
"[Unknown]". Formatting is a total function, so it never fails. -/
theorem format_quote_defaults (q : Dict) (h : q ≠ [])
    (ht : q.lookup "text" = none) (ha : q.lookup "author" = none)
    (hc : q.lookup "category" = none) :
    format_quote (some q) = "\n\"Unknown quote\"\n\n— Unknown\n[Unknown]\n" := by
  have hemp : q.isEmpty = false := by simpa [List.isEmpty_iff] using h
  simp [format_quote, hemp, dictGet, ht, ha, hc]
  rfl

/-- Witness for C2 (amended): a non-empty record with none of the three
fields formats with all the defaults substituted. -/
theorem format_quote_defaults_witness :
    format_quote (some [("source", "x")]) = "\n\"Unknown quote\"\n\n— Unknown\n[Unknown]\n" :=
  format_quote_defaults [("source", "x")] (by simp) rfl rfl rfl

/-- C3 counterexample: on the record
`{text: "A", author: "B", category: "aB"}` the formatter's output differs
from the layout the specification describes: the source emits no blank line
between the author line and the category line, and `str.capitalize()`
lowercases the remainder of the category (`"aB"` becomes `"Ab"`, not the
unchanged remainder `"aB"`). -/
theorem format_quote_layout_counterexample :
    format_quote (some [("text", "A"), ("author", "B"), ("category", "aB")]) ≠
      format_spec_layout "A" "B" "aB" := by
  decide

/-- C3 (amended): for a present record with text `t`, author `a` and
category `c`, `Format` returns exactly: a blank line, `t` in straight double
quotes, a blank line, an em-dash followed by `a`, then — with no intervening
blank line — `c` in square brackets with its first character uppercased and
the remainder of `c` lowercased, and a trailing newline. -/
theorem format_quote_layout (q : Dict) (t a c : String)
    (ht : q.lookup "text" = some t) (ha : q.lookup "author" = some a)
    (hc : q.lookup "category" = some c) :
    format_quote (some q) = "\n\"" ++ t ++ "\"\n\n— " ++ a ++ "\n[" ++ pyCapitalize c ++ "]\n"
    ∧ pyCapitalize c =
      String.mk ((c.data.take 1).map Char.toUpper ++ (c.data.drop 1).map Char.toLower) := by
  have hne : q ≠ [] := by
    intro hq
    rw [hq] at ht
    simp at ht
  have hemp : q.isEmpty = false := by simpa [List.isEmpty_iff] using hne
  constructor
  · simp [format_quote, hemp, dictGet, ht, ha, hc]
  · cases hcd : c.data with
    | nil => simp [pyCapitalize, hcd]
    | cons ch cs => simp [pyCapitalize, hcd]

/-- Witness for C3 (amended): the record from the spec's round-trip
scenario formats to the exact layout, with `"— D"` on the author line and
`"[Philosophical]"` on the category line. -/
theorem format_quote_layout_witness :
    format_quote (some [("text", "C"), ("author", "D"), ("category", "philosophical")]) =
      "\n\"" ++ "C" ++ "\"\n\n— " ++ "D" ++ "\n[" ++ pyCapitalize "philosophical" ++ "]\n" :=
  (format_quote_layout [("text", "C"), ("author", "D"), ("category", "philosophical")]
    "C" "D" "philosophical" rfl rfl rfl).1

/-- Membership in `get_all_categories`: exactly the categories read off the
records (with the "unknown" default) appear in the output. -/
theorem mem_get_all_categories (quotes : List Dict) (x : String) :
    x ∈ get_all_categories quotes ↔ ∃ q ∈ quotes, categoryOf q = x := by
  simp [get_all_categories, List.mem_insertionSort]

/-- C4: `get_all_categories` returns the distinct category values of the
collection ("unknown" standing in for an absent category field), sorted
ascending, without duplicates, with length the number of distinct category
values. -/
theorem get_all_categories_correct (quotes : List Dict) :
    (get_all_categories quotes).Sorted (· ≤ ·)
    ∧ (get_all_categories quotes).Nodup
    ∧ (∀ x, x ∈ get_all_categories quotes ↔ ∃ q ∈ quotes, categoryOf q = x)
    ∧ (get_all_categories quotes).length = (quotes.map categoryOf).toFinset.card := by
  refine ⟨List.sorted_insertionSort _ _, ?_, ?_, ?_⟩
  · exact ((List.perm_insertionSort _ _).nodup_iff).mpr (List.nodup_dedup _)
  · exact mem_get_all_categories quotes
  · rw [get_all_categories, (List.perm_insertionSort _ _).length_eq, List.card_toFinset]

/-- Witness for C4: on the spec's round-trip collection, "motivational" is
reported as a category. -/
theorem get_all_categories_correct_witness :
    "motivational" ∈ get_all_categories
      [[("text", "A"), ("author", "B"), ("category", "motivational")],
       [("text", "C"), ("author", "D"), ("category", "philosophical")]] :=
  ((get_all_categories_correct _).2.2.1 "motivational").mpr
    ⟨[("text", "A"), ("author", "B"), ("category", "motivational")], by simp, by decide⟩

/-- C7 counterexample: a source that exists and parses to the JSON document
`[]` (valid JSON, but not the expected shape: no top-level mapping) does not
fail with a `ParseError`; `data.get('quotes', [])` raises an uncaught
`AttributeError` instead. -/
theorem load_quotes_shape_counterexample :
    load_quotes (some (some (JValue.arr []))) = LoadResult.attributeError
    ∧ LoadResult.attributeError ≠ LoadResult.jsonDecodeError :=
  ⟨rfl, fun h => LoadResult.noConfusion h⟩

/-- C7 (amended): `load_quotes` fails with `FileNotFoundError` exactly when
the source does not exist, and with a JSON decode error exactly when the
source exists but its content is not valid JSON. A document that parses but
whose top level is not a mapping makes `data.get` raise an uncaught
`AttributeError` (not a `ParseError`), while a top-level mapping always
constructs the store. Every failure is a raised exception, so no partial
store is left behind. -/
theorem load_quotes_failure_modes (source : Option (Option JValue)) :
    (load_quotes source = .fileNotFoundError ↔ source = none)
    ∧ (load_quotes source = .jsonDecodeError ↔ source = some none)
    ∧ (∀ v, source = some (some v) → (∀ fields, v ≠ JValue.obj fields) →
      load_quotes source = .attributeError)
    ∧ (∀ fields, source = some (some (JValue.obj fields)) →
      ∃ q w, load_quotes source = .ok q w) := by
  refine ⟨?_, ?_, ?_, ?_⟩
  · match source with
    | none => simp [load_quotes]
    | some none => simp [load_quotes]
    | some (some v) => cases v <;> simp [load_quotes]
  · match source with
    | none => simp [load_quotes]
    | some none => simp [load_quotes]
    | some (some v) => cases v <;> simp [load_quotes]
  · rintro v rfl hobj
    cases v with
    | obj fields => exact absurd rfl (hobj fields)
    | null => rfl
    | bool b => rfl
    | num n => rfl
    | str s => rfl
    | arr l => rfl
  · rintro fields rfl
    exact ⟨_, _, rfl⟩

/-- Witness for C7 (amended): a source parsing to the JSON document `null`
(no top-level mapping) raises `AttributeError`. -/
theorem load_quotes_failure_modes_witness :
    load_quotes (some (some JValue.null)) = LoadResult.attributeError :=
  (load_quotes_failure_modes (some (some JValue.null))).2.2.1 JValue.null rfl
    (fun _ h => JValue.noConfusion h)

/-- C8: loading a document with a top-level mapping that lacks the `quotes`
key succeeds with the empty collection and only the non-fatal warning; the
same holds when the key is present mapping to an empty list (zero records).
No exception is raised in either case. -/
theorem load_quotes_missing_key_ok (fields : List (String × JValue)) :
    (fields.lookup "quotes" = none →
      load_quotes (some (some (JValue.obj fields))) = .ok (JValue.arr []) true)
    ∧ (fields.lookup "quotes" = some (JValue.arr []) →
      load_quotes (some (some (JValue.obj fields))) = .ok (JValue.arr []) true) := by
  constructor
  · intro h
    simp [load_quotes, h, jFalsy]
  · intro h
    simp [load_quotes, h, jFalsy]

/-- Witness for C8: the document `{}` (no `quotes` key) loads successfully
as the empty collection with the warning emitted. -/
theorem load_quotes_missing_key_ok_witness :
    load_quotes (some (some (JValue.obj []))) = .ok (JValue.arr []) true :=
  (load_quotes_missing_key_ok []).1 rfl

/-- Every single query step leaves the store unchanged: each method body
only reads `self.quotes`. -/
theorem runOp_fst (g : QuoteGenerator) (op : Op) : (runOp g op).1 = g := by
  cases op <;> rfl

/-- C9: the collection is immutable after construction: any sequence of
calls to the four query operations leaves the store's `quotes` unchanged;
only initialization writes it. -/
theorem quotes_immutable (g : QuoteGenerator) (ops : List Op) :
    (runOps g ops).quotes = g.quotes ∧ runOps g ops = g := by
  suffices h : runOps g ops = g by exact ⟨by rw [h], h⟩
  induction ops generalizing g with
  | nil => rfl
  | cons op rest ih =>
    show runOps (runOp g op).1 rest = g
    rw [runOp_fst]
    exact ih g

/-- C10: a record lacking the `category` key is listed by
`get_all_categories` under the default "unknown", yet
`get_quote_by_category` matches it only under the query `""` (its matching
default is the empty string), never under "unknown"; hence a category name
reported by `get_all_categories` can yield no result, as on the one-record
collection `[{text: "A"}]`. -/
theorem missing_category_mismatch (quotes : List Dict) (q : Dict)
    (hq : q ∈ quotes) (hc : q.lookup "category" = none) :
    "unknown" ∈ get_all_categories quotes
    ∧ matchesCategory "unknown" q = false
    ∧ (∀ c, matchesCategory c q = true ↔ c = "")
    ∧ (∀ i, get_quote_by_category [[("text", "A")]] "unknown" i = none) := by
  refine ⟨?_, ?_, ?_, fun i => rfl⟩
  · exact (mem_get_all_categories quotes "unknown").mpr
      ⟨q, hq, by simp [categoryOf, dictGet, hc]⟩
  · simp [matchesCategory, dictGet, hc]
    decide
  · intro c
    simp only [matchesCategory, dictGet, hc, Option.getD_none, beq_iff_eq]
    constructor
    · intro h
      exact (pyLower_eq_empty_iff c).mp h.symm
    · intro h
      rw [h]

/-- Witness for C10: on the collection `[{text: "A"}]`, "unknown" is a
reported category but querying it returns no result. -/
theorem missing_category_mismatch_witness :
    "unknown" ∈ get_all_categories [[("text", "A")]]
    ∧ get_quote_by_category [[("text", "A")]] "unknown" 0 = none := by
  have h := missing_category_mismatch [[("text", "A")]] [("text", "A")] (by simp) rfl
  exact ⟨h.1, h.2.2.2 0⟩

end QuoteGen
